/-
  Verification of the DegenPy video-generation task queue
  (server/services/video_pool.py, server/services/text2video.py,
   server/infrastructure/message_broker.py)
  against its natural-language specification.

  The Python code is shallowly embedded: dicts keyed by task id become
  association lists in insertion order (Python dicts preserve insertion
  order; assignment to an existing key overwrites in place), `time.time()`
  becomes an explicit `now : Int` parameter, `uuid.uuid4()` becomes an
  explicit fresh-id parameter, file-system side effects become an explicit
  list of existing paths, and raised exceptions become `Except` errors.
-/
import Mathlib

set_option linter.unusedVariables false

/-- Python truthiness of an optional string: `None` and `""` are falsy.
    Models `if video_path:` / `if error:` in `VideoPool.update_task_status`
    and `if video_path and ...` in `VideoPool.delete_task`. -/
def truthyStr : Option String → Bool
  | none => false
  | some s => !s.isEmpty

/-- One task record, mirroring the dict built in `VideoPool.create_task`
    (video_pool.py lines 90-103).  `status` is kept as a string, like the
    Python code.  Timestamps are integers standing for epoch seconds. -/
structure VideoTask where
  id : String
  content : String
  trigger_id : String
  agent_id : String
  action_sequence : List String
  status : String
  created_at : Int
  updated_at : Int
  priority : Int
  timeout : Option Int
  video_path : Option String
  error : Option String
deriving Repr, DecidableEq

/-- State of a `VideoPool`: `videos` models the `self.videos` dict as an
    association list in insertion order; `files` models the set of paths
    existing on disk (for `os.path.exists` / `os.remove` in `delete_task`). -/
structure PoolState where
  videos : List VideoTask
  files : List String
deriving Repr, DecidableEq

/-- MAX_QUEUE_LENGTH config, default 100 (video_pool.py line 26). -/
def MAX_QUEUE_LENGTH : Nat := 100

/-- QUEUE_WARNING_THRESHOLD config, default 50 (video_pool.py line 27). -/
def QUEUE_WARNING_THRESHOLD : Nat := 50

/-- VIDEO_GEN_TIMEOUT config, default 3600 seconds (text2video.py line 38). -/
def VIDEO_GEN_TIMEOUT : Int := 3600

/-- MAX_CONCURRENT_TASKS config, default 2 (text2video.py line 39). -/
def MAX_CONCURRENT_TASKS : Nat := 2

namespace VideoPool

/-- Python dict assignment `self.videos[task_id] = task_data`: overwrite in
    place when the key exists, otherwise append in insertion order. -/
def dictInsert (videos : List VideoTask) (task : VideoTask) : List VideoTask :=
  if videos.any (fun t => t.id == task.id) then
    videos.map (fun t => if t.id == task.id then task else t)
  else videos ++ [task]

/-- `VideoPool.get_pending_tasks` (video_pool.py lines 156-164): all tasks
    with status "pending", in dict iteration (= insertion) order. -/
def get_pending_tasks (st : PoolState) : List VideoTask :=
  st.videos.filter (fun t => t.status == "pending")

/-- `VideoPool.get_processing_tasks` (video_pool.py lines 166-174). -/
def get_processing_tasks (st : PoolState) : List VideoTask :=
  st.videos.filter (fun t => t.status == "processing")

/-- `VideoPool.get_completed_tasks` (video_pool.py lines 176-184). -/
def get_completed_tasks (st : PoolState) : List VideoTask :=
  st.videos.filter (fun t => t.status == "completed")

/-- `VideoPool.get_failed_tasks` (video_pool.py lines 186-194). -/
def get_failed_tasks (st : PoolState) : List VideoTask :=
  st.videos.filter (fun t => t.status == "failed")

/-- `VideoPool.get_all_tasks` (video_pool.py lines 196-203). -/
def get_all_tasks (st : PoolState) : List VideoTask :=
  st.videos

/-- `VideoPool.get_task` (video_pool.py lines 144-154): `self.videos.get(task_id)`. -/
def get_task (st : PoolState) (task_id : String) : Option VideoTask :=
  st.videos.find? (fun t => t.id == task_id)

/-- `VideoPool.create_task` (video_pool.py lines 66-112).  Checks the
    pending-queue length against MAX_QUEUE_LENGTH and raises ValueError
    (modelled as `.error`) when at or over it; otherwise builds the task
    dict with status "pending", `created_at = updated_at = now`,
    `video_path = error = None`, stores it under the fresh uuid `newId`,
    and returns the new id.  The queue-warning log line has no state
    effect and is not modelled. -/
def create_task (st : PoolState) (newId : String) (now : Int)
    (content trigger_id agent_id : String) (action_sequence : List String)
    (priority : Int) (timeout : Option Int) :
    Except String (PoolState × String) :=
  let pending_tasks := get_pending_tasks st
  if pending_tasks.length ≥ MAX_QUEUE_LENGTH then
    .error ("Queue length exceeded maximum limit of " ++ toString MAX_QUEUE_LENGTH)
  else
    let task_data : VideoTask :=
      { id := newId, content := content, trigger_id := trigger_id,
        agent_id := agent_id, action_sequence := action_sequence,
        status := "pending", created_at := now, updated_at := now,
        priority := priority, timeout := timeout,
        video_path := none, error := none }
    .ok ({ st with videos := dictInsert st.videos task_data }, newId)

/-- Field writes performed on the target record by
    `VideoPool.update_task_status` (video_pool.py lines 133-140): set
    `status` and `updated_at` unconditionally, set `video_path` only when
    the argument is truthy, set `error` only when the argument is truthy
    (neither result field is ever cleared). -/
def updateFields (status : String) (video_path error : Option String)
    (now : Int) (t : VideoTask) : VideoTask :=
  let t1 := { t with status := status, updated_at := now }
  let t2 := if truthyStr video_path then { t1 with video_path := video_path } else t1
  if truthyStr error then { t2 with error := error } else t2

/-- `VideoPool.update_task_status` (video_pool.py lines 114-142).  Returns
    `false` (and leaves the store unchanged) when the id is unknown;
    otherwise applies `updateFields` to the record with that id and
    returns `true` (the `_save_metadata` result, modelled as success). -/
def update_task_status (st : PoolState) (task_id status : String)
    (video_path error : Option String) (now : Int) : PoolState × Bool :=
  if st.videos.all (fun t => t.id != task_id) then
    (st, false)
  else
    ({ st with videos := st.videos.map (fun t =>
        if t.id == task_id then updateFields status video_path error now t else t) },
     true)

/-- `VideoPool.delete_task` (video_pool.py lines 205-230).  Returns `false`
    when the id is unknown; otherwise removes the video file when the
    task's `video_path` is truthy and the path exists, deletes the record,
    and returns `true`. -/
def delete_task (st : PoolState) (task_id : String) : PoolState × Bool :=
  match st.videos.find? (fun t => t.id == task_id) with
  | none => (st, false)
  | some task =>
    let files :=
      match task.video_path with
      | some p =>
        if !p.isEmpty && st.files.contains p then st.files.filter (fun q => q != p)
        else st.files
      | none => st.files
    ({ videos := st.videos.filter (fun t => t.id != task_id), files := files }, true)

/-- `VideoPool.clean_old_tasks` (video_pool.py lines 232-254).  Collects the
    ids of all tasks with `now - created_at > days*24*60*60`, deletes each
    via `delete_task`, and returns how many were collected. -/
def clean_old_tasks (st : PoolState) (days : Int) (now : Int) : PoolState × Nat :=
  let max_age := days * 24 * 60 * 60
  let tasks_to_delete :=
    (st.videos.filter (fun t => now - t.created_at > max_age)).map (fun t => t.id)
  let final := tasks_to_delete.foldl (fun s tid => (delete_task s tid).1) st
  (final, tasks_to_delete.length)

/-- Aggregate counts returned by `get_video_task_count` (video_pool.py
    lines 295-307). -/
structure StatusCounts where
  pending : Nat
  processing : Nat
  completed : Nat
  failed : Nat
  total : Nat
deriving Repr, DecidableEq

/-- Module-level `get_video_task_count()` (video_pool.py lines 295-307).
    Note: the Python def takes NO parameters. -/
def get_video_task_count (st : PoolState) : StatusCounts :=
  { pending := (get_pending_tasks st).length,
    processing := (get_processing_tasks st).length,
    completed := (get_completed_tasks st).length,
    failed := (get_failed_tasks st).length,
    total := (get_all_tasks st).length }

end VideoPool

/-- Sort key comparison used by the task processor (text2video.py line 153):
    Python sorts ascending by the tuple `(-priority, created_at)`, so
    `t` comes no later than `u` iff `-t.priority < -u.priority`, or the
    negated priorities are equal and `t.created_at ≤ u.created_at`. -/
def taskKeyLe (t u : VideoTask) : Bool :=
  decide (-t.priority < -u.priority) ||
    (decide (-t.priority = -u.priority) && decide (t.created_at ≤ u.created_at))

/-- The processor's selection (text2video.py lines 152-153):
    `sorted(pending_tasks, key=lambda t: (-priority, created_at))[0]`.
    Python's sort is stable, as is `List.mergeSort`; taking the head of the
    stably sorted list is the first element with minimal key. -/
def selectNextTask (pending : List VideoTask) : Option VideoTask :=
  (pending.mergeSort taskKeyLe).head?

/-- Task `u` is strictly preferred to `t` by the spec's ordering: strictly
    higher priority, or equal priority and strictly earlier creation. -/
def strictlyPreferred (u t : VideoTask) : Prop :=
  u.priority > t.priority ∨ (u.priority = t.priority ∧ u.created_at < t.created_at)

instance (u t : VideoTask) : Decidable (strictlyPreferred u t) := by
  unfold strictlyPreferred; infer_instance

/-- Python exceptions that the embedded code can raise. -/
inductive PyErr
  | typeError
  | valueError (msg : String)
deriving Repr, DecidableEq

/-- One entry of `Text2VideoGenerator.active_tasks` (text2video.py lines
    171-175): the dict value `{thread, start_time, task}` keyed by task id.
    The thread handle is abstracted to its observable `is_alive()` bit. -/
structure ActiveEntry where
  task_id : String
  threadAlive : Bool
  start_time : Int
  task : VideoTask
deriving Repr, DecidableEq

/-- The body of the `_task_monitor` loop for one active entry (text2video.py
    lines 191-220).  If the thread has finished, the entry is pruned.
    Otherwise `timeout = task.get("timeout", VIDEO_GEN_TIMEOUT)` — the key
    is always present in task dicts built by `create_task`, so this returns
    the stored value, which may be `None`; comparing `now - start_time >
    None` then raises TypeError.  With a numeric timeout, if
    `now - start_time > timeout` the task is force-failed with the
    interpolated message, a "failed" event is published, and the entry is
    removed from the active set; otherwise nothing changes.  `events` is
    the log of `publish_video_task(task_id, status, {})` calls. -/
def monitorEntry (pool : PoolState) (active : List ActiveEntry)
    (events : List (String × String)) (e : ActiveEntry) (now : Int) :
    Except PyErr (PoolState × List ActiveEntry × List (String × String)) :=
  if !e.threadAlive then
    .ok (pool, active.filter (fun a => a.task_id != e.task_id), events)
  else
    match e.task.timeout with
    | none => .error .typeError
    | some timeout =>
      if now - e.start_time > timeout then
        .ok ((VideoPool.update_task_status pool e.task_id "failed" none
                (some ("Task timed out after " ++ toString timeout ++ " seconds")) now).1,
             active.filter (fun a => a.task_id != e.task_id),
             events ++ [(e.task_id, "failed")])
      else
        .ok (pool, active, events)

namespace MessageBroker

/-- In-memory fallback state of `MessageBroker` (message_broker.py lines
    58-64): `messages` is `self.messages` (appended on publish with the
    channel and a timestamp), `callbacks` flattens the `self.callbacks`
    dict of per-channel handler lists, in subscription order; handlers are
    identified by an opaque id.  `deliveries` logs each handler invocation
    `callback(message)` as a (handler, message) pair, in call order. -/
structure BrokerState (μ : Type) where
  messages : List (String × μ × Int)
  callbacks : List (String × Nat)
  deliveries : List (Nat × μ)
deriving Repr, DecidableEq

/-- Handlers registered for one channel, in subscription order: the
    in-memory `self.callbacks[channel]` list. -/
def channelCallbacks (st : BrokerState μ) (channel : String) : List Nat :=
  (st.callbacks.filter (fun c => c.1 == channel)).map (fun c => c.2)

/-- `MessageBroker.subscribe` on the in-memory fallback path
    (message_broker.py lines 131-136): append the callback to the
    channel's list and return True. -/
def subscribe (st : BrokerState μ) (channel : String) (handler : Nat) :
    BrokerState μ × Bool :=
  ({ st with callbacks := st.callbacks ++ [(channel, handler)] }, true)

/-- `MessageBroker.publish` on the in-memory fallback path
    (message_broker.py lines 82-99): append the message (with channel and
    timestamp) to `self.messages`, invoke every callback registered for
    the channel with the message (exceptions inside callbacks are caught
    and logged, never propagated), and return True.  When no callback is
    registered for the channel the loop body never runs. -/
def publish (st : BrokerState μ) (channel : String) (msg : μ) (now : Int) :
    BrokerState μ × Bool :=
  ({ st with
      messages := st.messages ++ [(channel, msg, now)],
      deliveries := st.deliveries ++ (channelCallbacks st channel).map (fun h => (h, msg)) },
   true)

end MessageBroker

/-- Combined state for the processor/monitor interleaving of claim C1:
    the shared `VideoPool` store plus the id set of
    `Text2VideoGenerator.active_tasks`. -/
structure SysState where
  pool : PoolState
  active : Finset String
deriving DecidableEq

/-- Empty initial system state. -/
def SysInit : SysState := ⟨⟨[], []⟩, ∅⟩

/-- Atomic steps of the generator, interleaving the `_task_processor` loop
    (text2video.py lines 139-177), the worker thread's terminal update
    (`_video_generation_thread`, lines 236-295), and the `_task_monitor`
    loop (lines 187-220), over the shared store.

    * `create`: a caller creates a task via `VideoPool.create_task` with a
      fresh uuid.
    * `claim`: the processor, when `len(active_tasks) < MAX_CONCURRENT_TASKS`,
      selects the scheduler's pick from the pending tasks, marks it
      "processing" and records it in the active map.
    * `workerFinish`: a worker thread finishes its task, writing the
      terminal status with its payload ("completed" with a truthy
      video path, or "failed" with a truthy error).
    * `pruneFinished`: the monitor removes an entry whose thread is no
      longer alive; the worker's last acts before exiting wrote a terminal
      status (every exit path of `_video_generation_thread` does), so the
      task is no longer "processing".
    * `timeoutStep`: the monitor force-fails a timed-out active task and
      removes it from the active map. -/
inductive SysStep (maxC : Nat) : SysState → SysState → Prop
  | create (s : SysState) (newId : String) (now : Int)
      (content trigger_id agent_id : String) (action_sequence : List String)
      (priority : Int) (timeout : Option Int) (st' : PoolState) (tid : String)
      (hfresh : ∀ t ∈ s.pool.videos, t.id ≠ newId)
      (hcreate : VideoPool.create_task s.pool newId now content trigger_id
        agent_id action_sequence priority timeout = .ok (st', tid)) :
      SysStep maxC s ⟨st', s.active⟩
  | claim (s : SysState) (t : VideoTask) (now : Int)
      (hcap : s.active.card < maxC)
      (hsel : selectNextTask (VideoPool.get_pending_tasks s.pool) = some t) :
      SysStep maxC s ⟨(VideoPool.update_task_status s.pool t.id "processing" none none now).1,
        insert t.id s.active⟩
  | workerFinish (s : SysState) (tid stat : String) (vp err : Option String) (now : Int)
      (hmem : tid ∈ s.active)
      (hterm : (stat = "completed" ∧ truthyStr vp = true ∧ err = none) ∨
               (stat = "failed" ∧ vp = none ∧ truthyStr err = true)) :
      SysStep maxC s ⟨(VideoPool.update_task_status s.pool tid stat vp err now).1, s.active⟩
  | pruneFinished (s : SysState) (tid : String)
      (hmem : tid ∈ s.active)
      (hdone : ∀ t ∈ s.pool.videos, t.id = tid → t.status ≠ "processing") :
      SysStep maxC s ⟨s.pool, s.active.erase tid⟩
  | timeoutStep (s : SysState) (tid : String) (tmo now : Int)
      (hmem : tid ∈ s.active) :
      SysStep maxC s ⟨(VideoPool.update_task_status s.pool tid "failed" none
          (some ("Task timed out after " ++ toString tmo ++ " seconds")) now).1,
        s.active.erase tid⟩

/-- States reachable from the empty system state by interleaved steps. -/
def SysReachable (maxC : Nat) (s : SysState) : Prop :=
  Relation.ReflTransGen (SysStep maxC) SysInit s

/-- Inductive invariant for the concurrency bound: task ids are unique,
    every "processing" task is tracked in the active map, and the active
    map never holds more than `maxC` entries. -/
def SysInv (maxC : Nat) (s : SysState) : Prop :=
  (s.pool.videos.map VideoTask.id).Nodup ∧
  (∀ t ∈ s.pool.videos, t.status = "processing" → t.id ∈ s.active) ∧
  s.active.card ≤ maxC

/-- One store operation, for reasoning about sequences of `create_task`
    and `update_task_status` calls (claim C4). -/
inductive PoolOp
  | create (newId : String) (now : Int) (content trigger_id agent_id : String)
      (action_sequence : List String) (priority : Int) (timeout : Option Int)
  | update (task_id status : String) (video_path error : Option String) (now : Int)
deriving Repr, DecidableEq

/-- Apply one store operation; a rejected `create_task` (queue full) leaves
    the store unchanged. -/
def applyOp (st : PoolState) : PoolOp → PoolState
  | .create newId now content trigger_id agent_id action_sequence priority timeout =>
    match VideoPool.create_task st newId now content trigger_id agent_id
        action_sequence priority timeout with
    | .ok (st', _) => st'
    | .error _ => st
  | .update task_id status video_path error now =>
    (VideoPool.update_task_status st task_id status video_path error now).1

/-- Run a sequence of store operations from a state. -/
def runOps (st : PoolState) (ops : List PoolOp) : PoolState :=
  ops.foldl applyOp st

/-- The spec's allowed status transitions: `pending → processing` and
    `processing → completed | failed | timeout`. -/
def allowedTransition (fromStatus toStatus : String) : Bool :=
  (fromStatus == "pending" && toStatus == "processing") ||
  (fromStatus == "processing" &&
    (toStatus == "completed" || toStatus == "failed" || toStatus == "timeout"))

/-- An operation is along the allowed transitions in the given state:
    creations always are; an update must target an existing task and move
    its current status along an allowed edge. -/
def opAllowed (st : PoolState) : PoolOp → Bool
  | .create _ _ _ _ _ _ _ _ => true
  | .update task_id status _ _ _ =>
    match st.videos.find? (fun t => t.id == task_id) with
    | some t => allowedTransition t.status status
    | none => false

/-- Every operation of the sequence is along the allowed transitions in
    the state where it runs. -/
def opsAllowed : PoolState → List PoolOp → Bool
  | _, [] => true
  | st, op :: rest => opAllowed st op && opsAllowed (applyOp st op) rest

/-- An update carries the canonical payload for its target status, as the
    worker and monitor call sites do (text2video.py lines 99, 157, 210-214,
    261, 276-280): "processing" with no payload, "completed" with a truthy
    video path only, "failed"/"timeout" with a truthy error only. -/
def opDisciplined : PoolOp → Bool
  | .create _ _ _ _ _ _ _ _ => true
  | .update _ status video_path error _ =>
    (status == "processing" && !truthyStr video_path && !truthyStr error) ||
    (status == "completed" && truthyStr video_path && !truthyStr error) ||
    ((status == "failed" || status == "timeout") &&
      !truthyStr video_path && truthyStr error)

/-- Statuses the spec calls terminal. -/
def terminalStatus (s : String) : Bool :=
  s == "completed" || s == "failed" || s == "timeout"

/-- Terminal result exclusivity as claimed: completed tasks carry a video
    path and no error; failed/timeout tasks carry an error and no video
    path (so exactly one of the two result fields is non-null once the
    status is terminal). -/
def TerminalExclusivity (st : PoolState) : Prop :=
  ∀ t ∈ st.videos,
    (t.status = "completed" → t.video_path ≠ none ∧ t.error = none) ∧
    ((t.status = "failed" ∨ t.status = "timeout") →
      t.error ≠ none ∧ t.video_path = none)

instance : DecidablePred TerminalExclusivity := fun st => by
  unfold TerminalExclusivity; infer_instance

/-- Per-record strengthening of `TerminalExclusivity` used as the C4
    induction invariant: non-terminal tasks carry no result fields yet,
    completed tasks carry a truthy video path only, failed/timeout tasks a
    truthy error only. -/
def StatusOk (t : VideoTask) : Prop :=
  ((t.status = "pending" ∨ t.status = "processing") →
    t.video_path = none ∧ t.error = none) ∧
  (t.status = "completed" → truthyStr t.video_path = true ∧ t.error = none) ∧
  ((t.status = "failed" ∨ t.status = "timeout") →
    truthyStr t.error = true ∧ t.video_path = none)

/-- Store-wide C4 induction invariant: ids are unique and every record
    satisfies `StatusOk`. -/
def C4Inv (st : PoolState) : Prop :=
  (st.videos.map VideoTask.id).Nodup ∧ ∀ t ∈ st.videos, StatusOk t

/-- Empty initial pool state. -/
def PoolInit : PoolState := ⟨[], []⟩

/-- Parameter list of the module-level `get_video_task_count` def
    (video_pool.py line 295): it takes no parameters. -/
def get_video_task_count_params : List String := []

/-- Python positional-argument binding for a def without defaults or
    varargs: supplying more positional arguments than there are parameters
    raises TypeError, as does supplying fewer. -/
def bindPositional (params : List String) (args : List String) :
    Except PyErr (List (String × String)) :=
  if args.length > params.length then .error .typeError
  else if args.length < params.length then .error .typeError
  else .ok (params.zip args)

/-- `Text2VideoGenerator.generate_video` (text2video.py lines 103-133):
    create the task with `timeout=VIDEO_GEN_TIMEOUT` (a create_task
    ValueError propagates to the caller), publish a "pending" event for
    it, and return its id.  The second component is the list of published
    (task_id, status) events. -/
def generateVideoMethod (st : PoolState) (newId : String) (now : Int)
    (content trigger_id agent_id : String) (action_sequence : List String)
    (priority : Int) :
    Except PyErr (PoolState × List (String × String) × String) :=
  match VideoPool.create_task st newId now content trigger_id agent_id
      action_sequence priority (some VIDEO_GEN_TIMEOUT) with
  | .error msg => .error (.valueError msg)
  | .ok (st', task_id) => .ok (st', [(task_id, "pending")], task_id)

/-- Module-level `generate_video_from_text` (text2video.py lines 341-364).
    Its first statement is `pending_count = get_video_task_count("pending")`,
    a call that passes one positional argument to a def with no parameters
    (video_pool.py line 295), so Python raises TypeError there; the rest of
    the body (the queue-length check against MAX_QUEUE_LENGTH and the call
    to `generator.generate_video`) is modelled for completeness but is
    unreachable. -/
def generate_video_from_text (st : PoolState) (newId : String) (now : Int)
    (content trigger_id agent_id : String) (action_sequence : List String)
    (priority : Int) :
    Except PyErr (PoolState × List (String × String) × String) :=
  match bindPositional get_video_task_count_params ["pending"] with
  | .error e => .error e
  | .ok _ =>
    if (VideoPool.get_video_task_count st).pending ≥ MAX_QUEUE_LENGTH then
      .error (.valueError ("Queue length exceeded maximum limit of " ++
        toString MAX_QUEUE_LENGTH))
    else
      generateVideoMethod st newId now content trigger_id agent_id
        action_sequence priority

/-- Concrete sample task used by witnesses and counterexamples. -/
def mkTask (id : String) (priority created_at : Int) : VideoTask :=
  { id := id, content := "content", trigger_id := "trigger", agent_id := "agent",
    action_sequence := ["twitter"], status := "pending", created_at := created_at,
    updated_at := created_at, priority := priority, timeout := none,
    video_path := none, error := none }

/-- Two tasks tied on (priority, created_at) with distinct ids; `tieTaskA`
    has the smaller id. -/
def tieTaskA : VideoTask := mkTask "a" 1 10

/-- See `tieTaskA`. -/
def tieTaskB : VideoTask := mkTask "b" 1 10

/-- Task with strictly lower priority than the tied pair, used to head the
    C7 witness list so that the claimed task is not the list head. -/
def lowTask : VideoTask := mkTask "c" 0 5

/-- Empty in-memory broker state. -/
def BrokerInit : MessageBroker.BrokerState String := ⟨[], [], []⟩

/-- Concrete processing task with a 2-second timeout, for the C5 witness. -/
def sampleTimedTask : VideoTask :=
  { mkTask "t" 0 0 with status := "processing", timeout := some 2 }

/-- Active-map entry for `sampleTimedTask`, thread still alive. -/
def sampleEntry : ActiveEntry := ⟨"t", true, 0, sampleTimedTask⟩

/-- Pool holding only `sampleTimedTask`. -/
def samplePool : PoolState := ⟨[sampleTimedTask], []⟩

/-- Old completed task with a stored artifact, for the C9 witness. -/
def c9OldTask : VideoTask :=
  { mkTask "o" 0 0 with status := "completed", video_path := some "/videos/o.mp4" }

/-- Recently created task, for the C9 witness. -/
def c9NewTask : VideoTask := mkTask "n" 0 1000000

/-- Pool with one week-old task (artifact on disk) and one fresh task. -/
def c9Pool : PoolState := ⟨[c9OldTask, c9NewTask], ["/videos/o.mp4"]⟩

/-- Task record produced by the create step of the C1 witness. -/
def c1Task : VideoTask :=
  { id := "t1", content := "content", trigger_id := "trigger", agent_id := "agent",
    action_sequence := ["twitter"], status := "pending", created_at := 0,
    updated_at := 0, priority := 0, timeout := some 3600,
    video_path := none, error := none }

/-- System state after creating `c1Task` from the empty state. -/
def c1State1 : SysState := ⟨⟨[c1Task], []⟩, ∅⟩

/-- System state after the processor claims `c1Task`. -/
def c1State2 : SysState :=
  ⟨(VideoPool.update_task_status c1State1.pool c1Task.id "processing" none none 1).1,
   insert c1Task.id c1State1.active⟩

/-- Concrete operation sequence refuting claim C4 as stated: a task is
    created, marked processing, then marked completed with no payload —
    every update is along an allowed transition, yet the terminal task
    carries neither a video path nor an error. -/
def c4BadOps : List PoolOp :=
  [ .create "t" 0 "content" "trigger" "agent" ["twitter"] 0 none,
    .update "t" "processing" none none 1,
    .update "t" "completed" none none 2 ]

/-- Concrete disciplined operation sequence used by the C4 witness. -/
def c4GoodOps : List PoolOp :=
  [ .create "t" 0 "content" "trigger" "agent" ["twitter"] 0 none,
    .update "t" "processing" none none 1,
    .update "t" "completed" (some "/videos/t.mp4") none 2 ]

theorem updateFields_id (stat : String) (vp err : Option String) (now : Int)
    (t : VideoTask) : (VideoPool.updateFields stat vp err now t).id = t.id := by
  unfold VideoPool.updateFields
  split <;> split <;> rfl

theorem updateFields_status (stat : String) (vp err : Option String) (now : Int)
    (t : VideoTask) : (VideoPool.updateFields stat vp err now t).status = stat := by
  unfold VideoPool.updateFields
  split <;> split <;> rfl

theorem updateFields_video_path (stat : String) (vp err : Option String) (now : Int)
    (t : VideoTask) :
    (VideoPool.updateFields stat vp err now t).video_path
      = if truthyStr vp then vp else t.video_path := by
  unfold VideoPool.updateFields
  split <;> split <;> simp_all

theorem updateFields_error (stat : String) (vp err : Option String) (now : Int)
    (t : VideoTask) :
    (VideoPool.updateFields stat vp err now t).error
      = if truthyStr err then err else t.error := by
  unfold VideoPool.updateFields
  split <;> split <;> simp_all

theorem updateFields_created_at (stat : String) (vp err : Option String) (now : Int)
    (t : VideoTask) : (VideoPool.updateFields stat vp err now t).created_at = t.created_at := by
  unfold VideoPool.updateFields
  split <;> split <;> rfl

theorem updateFields_updateFields (stat : String) (vp err : Option String)
    (now1 now2 : Int) (t : VideoTask) :
    VideoPool.updateFields stat vp err now2 (VideoPool.updateFields stat vp err now1 t)
      = VideoPool.updateFields stat vp err now2 t := by
  cases t
  unfold VideoPool.updateFields
  by_cases hvp : truthyStr vp = true <;> by_cases herr : truthyStr err = true <;>
    simp [hvp, herr]

theorem update_task_status_fst (st : PoolState) (tid stat : String)
    (vp err : Option String) (now : Int) :
    (VideoPool.update_task_status st tid stat vp err now).1
      = if st.videos.all (fun t => t.id != tid) then st
        else { st with videos := st.videos.map (fun t =>
            if t.id == tid then VideoPool.updateFields stat vp err now t else t) } := by
  unfold VideoPool.update_task_status
  split <;> rfl

theorem update_task_status_files (st : PoolState) (tid stat : String)
    (vp err : Option String) (now : Int) :
    (VideoPool.update_task_status st tid stat vp err now).1.files = st.files := by
  rw [update_task_status_fst]
  split <;> rfl

theorem update_task_status_ids (st : PoolState) (tid stat : String)
    (vp err : Option String) (now : Int) :
    (VideoPool.update_task_status st tid stat vp err now).1.videos.map VideoTask.id
      = st.videos.map VideoTask.id := by
  rw [update_task_status_fst]
  split
  · rfl
  · simp only [List.map_map]
    apply List.map_congr_left
    intro t ht
    simp only [Function.comp_apply]
    split
    · exact updateFields_id ..
    · rfl

theorem update_guard_false {st : PoolState} {tid : String} (t : VideoTask)
    (hmem : t ∈ st.videos) (hid : t.id = tid) :
    (st.videos.all (fun u => u.id != tid)) = false := by
  rw [Bool.eq_false_iff]
  intro hall
  rw [List.all_eq_true] at hall
  have h2 := hall t hmem
  simp [bne, hid] at h2

theorem update_task_status_snd (st : PoolState) (tid stat : String)
    (vp err : Option String) (now : Int) :
    (VideoPool.update_task_status st tid stat vp err now).2
      = !(st.videos.all (fun t => t.id != tid)) := by
  unfold VideoPool.update_task_status
  split <;> simp_all

/-- C2: Backpressure on creation.  When the store already holds at least
    MAX_QUEUE_LENGTH pending tasks, `create_task` raises the
    capacity-exceeded ValueError (the check precedes any mutation, so no
    task is added and the pending count is unchanged — the operation
    returns no new state); strictly below the limit it inserts exactly one
    new task, with status "pending", `created_at = now`, null `video_path`
    and `error`, returns its id, and the pending count grows by exactly
    one. -/
theorem create_task_backpressure (st : PoolState) (newId : String) (now : Int)
    (content trigger_id agent_id : String) (action_sequence : List String)
    (priority : Int) (timeout : Option Int)
    (hfresh : ∀ t ∈ st.videos, t.id ≠ newId) :
    ((VideoPool.get_pending_tasks st).length ≥ MAX_QUEUE_LENGTH →
      VideoPool.create_task st newId now content trigger_id agent_id
          action_sequence priority timeout
        = .error ("Queue length exceeded maximum limit of " ++ toString MAX_QUEUE_LENGTH)) ∧
    ((VideoPool.get_pending_tasks st).length < MAX_QUEUE_LENGTH →
      ∃ st2, VideoPool.create_task st newId now content trigger_id agent_id
          action_sequence priority timeout = .ok (st2, newId) ∧
        st2.videos = st.videos ++
          [{ id := newId, content := content, trigger_id := trigger_id,
             agent_id := agent_id, action_sequence := action_sequence,
             status := "pending", created_at := now, updated_at := now,
             priority := priority, timeout := timeout,
             video_path := none, error := none }] ∧
        (VideoPool.get_pending_tasks st2).length
          = (VideoPool.get_pending_tasks st).length + 1) := by
  constructor
  · intro hge
    unfold VideoPool.create_task
    rw [if_pos hge]
  · intro hlt
    have hany : (st.videos.any (fun t => t.id == newId)) = false := by
      rw [Bool.eq_false_iff]
      intro hc
      rw [List.any_eq_true] at hc
      obtain ⟨t, ht, hbeq⟩ := hc
      exact hfresh t ht (by simpa using hbeq)
    have hins : VideoPool.dictInsert st.videos
        { id := newId, content := content, trigger_id := trigger_id,
          agent_id := agent_id, action_sequence := action_sequence,
          status := "pending", created_at := now, updated_at := now,
          priority := priority, timeout := timeout,
          video_path := none, error := none }
        = st.videos ++
          [{ id := newId, content := content, trigger_id := trigger_id,
             agent_id := agent_id, action_sequence := action_sequence,
             status := "pending", created_at := now, updated_at := now,
             priority := priority, timeout := timeout,
             video_path := none, error := none }] := by
      unfold VideoPool.dictInsert
      rw [if_neg (by simp [hany])]
    refine ⟨{ st with videos := st.videos ++
      [{ id := newId, content := content, trigger_id := trigger_id,
         agent_id := agent_id, action_sequence := action_sequence,
         status := "pending", created_at := now, updated_at := now,
         priority := priority, timeout := timeout,
         video_path := none, error := none }] }, ?_, rfl, ?_⟩
    · unfold VideoPool.create_task
      rw [if_neg (by omega)]
      exact congrArg (fun v => (Except.ok ({ videos := v, files := st.files }, newId) :
        Except String (PoolState × String))) hins
    · simp [VideoPool.get_pending_tasks, List.filter_append, List.length_append]

/-- Witness for C2: creating a task in the empty store succeeds and leaves
    one pending task. -/
theorem create_task_backpressure_witness :
    (∀ t ∈ PoolInit.videos, t.id ≠ "t1") ∧
    ((VideoPool.get_pending_tasks PoolInit).length < MAX_QUEUE_LENGTH →
      ∃ st2, VideoPool.create_task PoolInit "t1" 5 "content" "trigger" "agent"
          ["twitter"] 1 none = .ok (st2, "t1") ∧
        st2.videos = PoolInit.videos ++
          [{ id := "t1", content := "content", trigger_id := "trigger",
             agent_id := "agent", action_sequence := ["twitter"],
             status := "pending", created_at := 5, updated_at := 5,
             priority := 1, timeout := none,
             video_path := none, error := none }] ∧
        (VideoPool.get_pending_tasks st2).length
          = (VideoPool.get_pending_tasks PoolInit).length + 1) :=
  ⟨by simp [PoolInit],
   (create_task_backpressure PoolInit "t1" 5 "content" "trigger" "agent"
      ["twitter"] 1 none (by simp [PoolInit])).2⟩

/-- C6: every call of the module-level `generate_video_from_text` raises
    TypeError at its first statement, because it passes the positional
    argument "pending" to `get_video_task_count`, which takes no
    parameters; consequently no call ever creates a task or returns a
    task id. -/
theorem generate_video_from_text_type_error (st : PoolState) (newId : String)
    (now : Int) (content trigger_id agent_id : String)
    (action_sequence : List String) (priority : Int) :
    generate_video_from_text st newId now content trigger_id agent_id
        action_sequence priority = .error .typeError := rfl

theorem update_update_absorb (st : PoolState) (tid stat : String)
    (vp err : Option String) (now1 now2 : Int) (t0 : VideoTask)
    (hmem : t0 ∈ st.videos) (hid : t0.id = tid) :
    VideoPool.update_task_status
        ((VideoPool.update_task_status st tid stat vp err now1).1)
        tid stat vp err now2
      = VideoPool.update_task_status st tid stat vp err now2 := by
  have hguard := update_guard_false t0 hmem hid
  have h1 := update_task_status_fst st tid stat vp err now1
  rw [if_neg (by simp [hguard])] at h1
  have hmem2 : (if t0.id == tid then VideoPool.updateFields stat vp err now1 t0 else t0)
      ∈ (VideoPool.update_task_status st tid stat vp err now1).1.videos := by
    rw [h1]
    exact List.mem_map_of_mem _ hmem
  have hguard2 : ((VideoPool.update_task_status st tid stat vp err now1).1.videos.all
      (fun u => u.id != tid)) = false := by
    apply update_guard_false _ hmem2
    rw [if_pos (by simp [hid])]
    rw [updateFields_id]
    exact hid
  have h2 := update_task_status_fst
    ((VideoPool.update_task_status st tid stat vp err now1).1) tid stat vp err now2
  rw [if_neg (by simp [hguard2])] at h2
  have h3 := update_task_status_fst st tid stat vp err now2
  rw [if_neg (by simp [hguard])] at h3
  have hfun : ∀ t : VideoTask,
      (if (if t.id == tid then VideoPool.updateFields stat vp err now1 t else t).id == tid
        then VideoPool.updateFields stat vp err now2
          (if t.id == tid then VideoPool.updateFields stat vp err now1 t else t)
        else (if t.id == tid then VideoPool.updateFields stat vp err now1 t else t))
      = (if t.id == tid then VideoPool.updateFields stat vp err now2 t else t) := by
    intro t
    by_cases h : (t.id == tid) = true
    · rw [if_pos h, if_pos h,
        if_pos (show ((VideoPool.updateFields stat vp err now1 t).id == tid) = true by
          rw [updateFields_id]; exact h)]
      exact updateFields_updateFields ..
    · simp [h]
  apply Prod.ext
  · rw [h2, h3, h1]
    simp only [List.map_map, Function.comp_def]
    congr 1
    apply List.map_congr_left
    intro t ht
    exact hfun t
  · rw [update_task_status_snd, update_task_status_snd, hguard, hguard2]

/-- C8: updating a stored task to status "failed" with error "x" twice in
    succession raises no exception (both calls report success) and yields
    the same final store as a single such update. -/
theorem update_failed_idempotent (st : PoolState) (tid : String)
    (now1 now2 : Int) (t0 : VideoTask) (hmem : t0 ∈ st.videos)
    (hid : t0.id = tid) :
    VideoPool.update_task_status
        ((VideoPool.update_task_status st tid "failed" none (some "x") now1).1)
        tid "failed" none (some "x") now2
      = VideoPool.update_task_status st tid "failed" none (some "x") now2 ∧
    (VideoPool.update_task_status st tid "failed" none (some "x") now1).2 = true ∧
    (VideoPool.update_task_status
        ((VideoPool.update_task_status st tid "failed" none (some "x") now1).1)
        tid "failed" none (some "x") now2).2 = true := by
  have habs := update_update_absorb st tid "failed" none (some "x") now1 now2 t0 hmem hid
  refine ⟨habs, ?_, ?_⟩
  · rw [update_task_status_snd, update_guard_false t0 hmem hid]
    rfl
  · rw [habs, update_task_status_snd, update_guard_false t0 hmem hid]
    rfl

/-- Witness for C8 at a one-task store. -/
theorem update_failed_idempotent_witness :
    (mkTask "t" 0 0) ∈ (⟨[mkTask "t" 0 0], []⟩ : PoolState).videos ∧
    (mkTask "t" 0 0).id = "t" ∧
    VideoPool.update_task_status
        ((VideoPool.update_task_status ⟨[mkTask "t" 0 0], []⟩ "t" "failed" none (some "x") 1).1)
        "t" "failed" none (some "x") 2
      = VideoPool.update_task_status ⟨[mkTask "t" 0 0], []⟩ "t" "failed" none (some "x") 2 :=
  ⟨by simp, by simp [mkTask],
   (update_failed_idempotent ⟨[mkTask "t" 0 0], []⟩ "t" 1 2 (mkTask "t" 0 0)
      (by simp) (by simp [mkTask])).1⟩

/-- C10: in-memory broker fan-out and zero-subscriber safety.  After two
    handlers subscribe to a channel, one publish on that channel invokes
    both with the published message and reports success; a publish on a
    channel with no registered callbacks reports success and invokes no
    handler. -/
theorem broker_fanout_zero_safe {μ : Type} (st : MessageBroker.BrokerState μ)
    (channel : String) (h1 h2 : Nat) (msg : μ) (now : Int) :
    ((h1, msg) ∈ (MessageBroker.publish
        ((MessageBroker.subscribe
          ((MessageBroker.subscribe st channel h1).1) channel h2).1)
        channel msg now).1.deliveries ∧
     (h2, msg) ∈ (MessageBroker.publish
        ((MessageBroker.subscribe
          ((MessageBroker.subscribe st channel h1).1) channel h2).1)
        channel msg now).1.deliveries ∧
     (MessageBroker.publish
        ((MessageBroker.subscribe
          ((MessageBroker.subscribe st channel h1).1) channel h2).1)
        channel msg now).2 = true) ∧
    (MessageBroker.channelCallbacks st channel = [] →
      (MessageBroker.publish st channel msg now).2 = true ∧
      (MessageBroker.publish st channel msg now).1.deliveries = st.deliveries) := by
  constructor
  · refine ⟨?_, ?_, rfl⟩ <;>
    · simp [MessageBroker.publish, MessageBroker.subscribe,
        MessageBroker.channelCallbacks, List.filter_append]
  · intro hempty
    refine ⟨rfl, ?_⟩
    simp [MessageBroker.publish, hempty]

theorem taskKeyLe_trans (a b c : VideoTask) (h1 : taskKeyLe a b = true)
    (h2 : taskKeyLe b c = true) : taskKeyLe a c = true := by
  simp only [taskKeyLe, Bool.or_eq_true, Bool.and_eq_true, decide_eq_true_eq] at h1 h2 ⊢
  omega

theorem taskKeyLe_total (a b : VideoTask) : (taskKeyLe a b || taskKeyLe b a) = true := by
  simp only [taskKeyLe, Bool.or_eq_true, Bool.and_eq_true, decide_eq_true_eq]
  omega

theorem taskKeyLe_refl (a : VideoTask) : taskKeyLe a a = true := by
  simp [taskKeyLe]

theorem selectNextTask_spec (pending : List VideoTask) (t : VideoTask)
    (h : selectNextTask pending = some t) :
    t ∈ pending ∧ ∀ u ∈ pending, taskKeyLe t u = true := by
  unfold selectNextTask at h
  obtain ⟨rest, hrest⟩ := List.head?_eq_some_iff.mp h
  have hmem : t ∈ pending := by
    have h2 : t ∈ pending.mergeSort taskKeyLe := by
      rw [hrest]; exact List.mem_cons_self t rest
    exact List.mem_mergeSort.mp h2
  have hsorted := List.sorted_mergeSort taskKeyLe_trans taskKeyLe_total pending
  rw [hrest, List.pairwise_cons] at hsorted
  refine ⟨hmem, fun u hu => ?_⟩
  have hu2 : u ∈ pending.mergeSort taskKeyLe := List.mem_mergeSort.mpr hu
  rw [hrest] at hu2
  rcases List.mem_cons.mp hu2 with h1 | h2
  · rw [h1]; exact taskKeyLe_refl t
  · exact hsorted.1 u h2

theorem selectNextTask_cons_of_le (t : VideoTask) (l : List VideoTask)
    (h : ∀ u ∈ l, taskKeyLe t u = true) :
    selectNextTask (t :: l) = some t := by
  obtain ⟨l1, l2, heq, heq2, hl1⟩ :=
    List.mergeSort_cons taskKeyLe_trans taskKeyLe_total t l
  unfold selectNextTask
  rw [heq]
  cases l1 with
  | nil => rfl
  | cons b rest =>
    exfalso
    have hbl : b ∈ l := by
      have h2 : b ∈ l.mergeSort taskKeyLe := by
        rw [heq2]; exact List.mem_append_left _ (List.mem_cons_self b rest)
      exact List.mem_mergeSort.mp h2
    have h3 := h b hbl
    have h4 := hl1 b (List.mem_cons_self b rest)
    rw [h3] at h4
    simp at h4

/-- C3: scheduler selection order.  Whatever task the processor claims
    from the pending set (via `sorted(pending, key=(-priority, created_at))[0]`)
    is a member of the pending set to which no other pending task is
    strictly preferred: none has strictly higher priority, and none has
    equal priority with strictly earlier creation time. -/
theorem scheduler_selects_max (pending : List VideoTask) (t : VideoTask)
    (h : selectNextTask pending = some t) :
    t ∈ pending ∧ ∀ u ∈ pending, ¬ strictlyPreferred u t := by
  obtain ⟨hmem, hle⟩ := selectNextTask_spec pending t h
  refine ⟨hmem, fun u hu hcontra => ?_⟩
  have h2 := hle u hu
  simp only [taskKeyLe, Bool.or_eq_true, Bool.and_eq_true, decide_eq_true_eq] at h2
  unfold strictlyPreferred at hcontra
  omega

/-- Witness for C3: from the pending list with the priority-10 task first,
    the priority-10 task is selected and neither task is strictly
    preferred to it. -/
theorem scheduler_selects_max_witness :
    selectNextTask [mkTask "b" 10 2, mkTask "a" 5 1] = some (mkTask "b" 10 2) ∧
    (mkTask "b" 10 2 ∈ [mkTask "b" 10 2, mkTask "a" 5 1] ∧
     ∀ u ∈ [mkTask "b" 10 2, mkTask "a" 5 1], ¬ strictlyPreferred u (mkTask "b" 10 2)) :=
  ⟨selectNextTask_cons_of_le _ _ (by decide),
   scheduler_selects_max [mkTask "b" 10 2, mkTask "a" 5 1] (mkTask "b" 10 2)
     (selectNextTask_cons_of_le _ _ (by decide))⟩

/-- Counterexample for C7: two pending tasks tied on (priority, created_at)
    with `tieTaskA.id < tieTaskB.id`.  From the pending list listing
    `tieTaskB` first, the processor claims `tieTaskB`, not the task with
    the smaller id; permuting the list (same multiset of (priority,
    created_at, id) triples) changes the claimed task.  Ties are therefore
    broken by list position, not id, and the claimed task is not
    determined by the triples alone. -/
theorem scheduler_id_tiebreak_counterexample :
    tieTaskA.priority = tieTaskB.priority ∧
    tieTaskA.created_at = tieTaskB.created_at ∧
    tieTaskA.id = "a" ∧ tieTaskB.id = "b" ∧
    ([tieTaskB, tieTaskA]).Perm [tieTaskA, tieTaskB] ∧
    selectNextTask [tieTaskB, tieTaskA] = some tieTaskB ∧
    selectNextTask [tieTaskA, tieTaskB] = some tieTaskA ∧
    tieTaskB ≠ tieTaskA :=
  ⟨by decide, by decide, rfl, rfl,
   List.Perm.swap tieTaskA tieTaskB [],
   selectNextTask_cons_of_le _ _ (by decide),
   selectNextTask_cons_of_le _ _ (by decide),
   by decide⟩

theorem not_strictlyPreferred_of_le (a u : VideoTask) (h : taskKeyLe a u = true) :
    ¬ strictlyPreferred u a := by
  simp only [taskKeyLe, Bool.or_eq_true, Bool.and_eq_true, decide_eq_true_eq] at h
  unfold strictlyPreferred
  omega

theorem strictlyPreferred_of_not_le (a b : VideoTask) (h : ¬ taskKeyLe a b = true) :
    strictlyPreferred b a := by
  simp only [taskKeyLe, Bool.or_eq_true, Bool.and_eq_true, decide_eq_true_eq] at h
  unfold strictlyPreferred
  omega

theorem not_strictlyPreferred_of_not_le (a b : VideoTask) (h : ¬ taskKeyLe a b = true) :
    ¬ strictlyPreferred a b := by
  simp only [taskKeyLe, Bool.or_eq_true, Bool.and_eq_true, decide_eq_true_eq] at h
  unfold strictlyPreferred
  omega

theorem selectNextTask_nil : selectNextTask ([] : List VideoTask) = none := by
  simp [selectNextTask]

theorem selectNextTask_cons (a : VideoTask) (rest : List VideoTask) :
    selectNextTask (a :: rest)
      = match selectNextTask rest with
        | none => some a
        | some b => if taskKeyLe a b then some a else some b := by
  obtain ⟨l1, l2, heq, heq2, hl1⟩ :=
    List.mergeSort_cons taskKeyLe_trans taskKeyLe_total a rest
  cases hr : selectNextTask rest with
  | none =>
    show selectNextTask (a :: rest) = some a
    have hnil : rest.mergeSort taskKeyLe = [] := by
      unfold selectNextTask at hr
      exact List.head?_eq_none_iff.mp hr
    have hl1nil : l1 = [] := by
      rw [hnil] at heq2
      exact (List.append_eq_nil.mp heq2.symm).1
    unfold selectNextTask
    rw [heq, hl1nil]
    rfl
  | some b =>
    show selectNextTask (a :: rest) = if taskKeyLe a b then some a else some b
    unfold selectNextTask at hr
    by_cases hab : taskKeyLe a b = true
    · rw [if_pos hab]
      cases hl : l1 with
      | nil =>
        unfold selectNextTask
        rw [heq, hl]
        rfl
      | cons c l1x =>
        exfalso
        have hc : (l1 ++ l2).head? = some c := by rw [hl]; rfl
        rw [← heq2, hr] at hc
        injection hc with hbc
        have h4 := hl1 c (by rw [hl]; exact List.mem_cons_self c l1x)
        rw [← hbc, hab] at h4
        exact Bool.noConfusion h4
    · rw [if_neg hab]
      cases hl : l1 with
      | nil =>
        exfalso
        have hl2 : rest.mergeSort taskKeyLe = l2 := by
          rw [heq2, hl]
          rfl
        rw [hl2] at hr
        obtain ⟨ys, hys⟩ := List.head?_eq_some_iff.mp hr
        have hsorted := List.sorted_mergeSort taskKeyLe_trans taskKeyLe_total (a :: rest)
        rw [heq, hl, List.nil_append, List.pairwise_cons] at hsorted
        exact hab (hsorted.1 b (by rw [hys]; exact List.mem_cons_self b ys))
      | cons c l1x =>
        have hc : (l1 ++ l2).head? = some c := by rw [hl]; rfl
        rw [← heq2, hr] at hc
        injection hc with hbc
        unfold selectNextTask
        rw [heq, hl]
        show some c = some b
        rw [hbc]

/-- C7 amended: for every pending list, the claimed task is the
    positionally-first task among those with no strictly preferred
    competitor — every task listed before it is strictly worse under
    (priority, -created_at), and no pending task is strictly better than
    it.  Ties on (priority, created_at) are thus broken by position in the
    pending list (dict insertion order), never by id, and the claimed task
    is determined by the ordered list rather than by the (priority,
    created_at, id) triples alone. -/
theorem scheduler_position_tiebreak (l : List VideoTask) (t : VideoTask)
    (h : selectNextTask l = some t) :
    ∃ l₁ l₂, l = l₁ ++ t :: l₂ ∧
      (∀ u ∈ l₁, strictlyPreferred t u) ∧
      (∀ u ∈ l, ¬ strictlyPreferred u t) := by
  induction l generalizing t with
  | nil => simp [selectNextTask] at h
  | cons a rest ih =>
    rw [selectNextTask_cons] at h
    cases hr : selectNextTask rest with
    | none =>
      rw [hr] at h
      have h2 : some a = some t := h
      injection h2 with hta
      subst hta
      have hrest : rest = [] := by
        unfold selectNextTask at hr
        rw [List.head?_eq_none_iff] at hr
        have hp := List.mergeSort_perm rest taskKeyLe
        rw [hr] at hp
        exact (hp.symm).eq_nil
      subst hrest
      refine ⟨[], [], rfl, by simp, ?_⟩
      intro u hu
      rw [List.mem_singleton] at hu
      rw [hu]
      exact not_strictlyPreferred_of_le a a (taskKeyLe_refl a)
    | some b =>
      rw [hr] at h
      have hif : (if taskKeyLe a b then some a else some b) = some t := h
      by_cases hab : taskKeyLe a b = true
      · rw [if_pos hab] at hif
        injection hif with hta
        subst hta
        obtain ⟨hbmem, hble⟩ := selectNextTask_spec rest b hr
        refine ⟨[], rest, rfl, by simp, ?_⟩
        intro u hu
        rcases List.mem_cons.mp hu with h3 | h3
        · rw [h3]
          exact not_strictlyPreferred_of_le a a (taskKeyLe_refl a)
        · exact not_strictlyPreferred_of_le a u
            (taskKeyLe_trans a b u hab (hble u h3))
      · rw [if_neg hab] at hif
        injection hif with htb
        subst htb
        obtain ⟨l₁, l₂, hsplit, hpre, hmax⟩ := ih b hr
        refine ⟨a :: l₁, l₂, by rw [hsplit]; rfl, ?_, ?_⟩
        · intro u hu
          rcases List.mem_cons.mp hu with h3 | h3
          · rw [h3]
            exact strictlyPreferred_of_not_le a b hab
          · exact hpre u h3
        · intro u hu
          rcases List.mem_cons.mp hu with h3 | h3
          · rw [h3]
            exact not_strictlyPreferred_of_not_le a b hab
          · exact hmax u h3

/-- Witness for C7 amended: in the pending list headed by a strictly
    worse task and followed by the two tied tasks, the claimed task is
    `tieTaskB` — the first tied task, not the list head and not the
    smaller id — and the decomposition exists as the theorem states. -/
theorem scheduler_position_tiebreak_witness :
    selectNextTask [lowTask, tieTaskB, tieTaskA] = some tieTaskB ∧
    (∃ l₁ l₂, [lowTask, tieTaskB, tieTaskA] = l₁ ++ tieTaskB :: l₂ ∧
      (∀ u ∈ l₁, strictlyPreferred tieTaskB u) ∧
      (∀ u ∈ [lowTask, tieTaskB, tieTaskA], ¬ strictlyPreferred u tieTaskB)) := by
  have h1 : selectNextTask [tieTaskA] = some tieTaskA := by
    rw [selectNextTask_cons, selectNextTask_nil]
  have h2 : selectNextTask [tieTaskB, tieTaskA] = some tieTaskB := by
    rw [selectNextTask_cons, h1]
    show (if taskKeyLe tieTaskB tieTaskA = true then some tieTaskB else some tieTaskA)
      = some tieTaskB
    rw [if_pos (by decide)]
  have h3 : selectNextTask [lowTask, tieTaskB, tieTaskA] = some tieTaskB := by
    rw [selectNextTask_cons, h2]
    show (if taskKeyLe lowTask tieTaskB = true then some lowTask else some tieTaskB)
      = some tieTaskB
    rw [if_neg (by decide)]
  exact ⟨h3, scheduler_position_tiebreak [lowTask, tieTaskB, tieTaskA] tieTaskB h3⟩

/-- Witness for C10: publishing on the empty broker with no subscribers
    delivers nothing and succeeds; with two subscribers both receive. -/
theorem broker_fanout_zero_safe_witness :
    ((1, "m") ∈ (MessageBroker.publish
        ((MessageBroker.subscribe
          ((MessageBroker.subscribe BrokerInit "video_tasks" 1).1) "video_tasks" 2).1)
        "video_tasks" "m" 0).1.deliveries ∧
     (MessageBroker.channelCallbacks BrokerInit "video_tasks" = []) ∧
     ((MessageBroker.publish BrokerInit "video_tasks" "m" 0).2 = true ∧
      (MessageBroker.publish BrokerInit "video_tasks" "m" 0).1.deliveries
        = BrokerInit.deliveries)) :=
  ⟨(broker_fanout_zero_safe BrokerInit "video_tasks" 1 2 "m" 0).1.1,
   rfl,
   (broker_fanout_zero_safe BrokerInit "video_tasks" 1 2 "m" 0).2 rfl⟩

theorem timeout_msg_truthy (x : String) :
    truthyStr (some ("Task timed out after " ++ x ++ " seconds")) = true := by
  show (!("Task timed out after " ++ x ++ " seconds").isEmpty) = true
  have h : ("Task timed out after " ++ x ++ " seconds").isEmpty = false := by
    rw [Bool.eq_false_iff]
    intro h2
    rw [String.isEmpty_iff] at h2
    have h3 := congrArg String.length h2
    simp [String.length_append] at h3
    exact absurd h3.2 (by decide)
  rw [h]
  rfl

/-- C5: timeout enforcement by the monitor.  For an active entry whose
    thread is still alive and whose task has numeric timeout `tmo`: when
    `now - start_time > tmo`, the monitor loop body force-fails the task —
    the stored record with that id gets status "failed" and error exactly
    "Task timed out after {tmo} seconds" — publishes a "failed" event, and
    removes the entry from the active set; when the deadline has not
    passed, it changes nothing. -/
theorem monitor_timeout_enforcement (pool : PoolState) (active : List ActiveEntry)
    (events : List (String × String)) (e : ActiveEntry) (now tmo : Int)
    (halive : e.threadAlive = true) (htmo : e.task.timeout = some tmo) :
    ((now - e.start_time > tmo) →
      monitorEntry pool active events e now =
        .ok ((VideoPool.update_task_status pool e.task_id "failed" none
                (some ("Task timed out after " ++ toString tmo ++ " seconds")) now).1,
             active.filter (fun a => a.task_id != e.task_id),
             events ++ [(e.task_id, "failed")]) ∧
      (∀ t ∈ (VideoPool.update_task_status pool e.task_id "failed" none
                (some ("Task timed out after " ++ toString tmo ++ " seconds")) now).1.videos,
          t.id = e.task_id →
          t.status = "failed" ∧
          t.error = some ("Task timed out after " ++ toString tmo ++ " seconds")) ∧
      (∀ a ∈ active.filter (fun a => a.task_id != e.task_id),
          a.task_id ≠ e.task_id)) ∧
    (¬(now - e.start_time > tmo) →
      monitorEntry pool active events e now = .ok (pool, active, events)) := by
  have hmsg := timeout_msg_truthy (toString tmo)
  constructor
  · intro hlate
    refine ⟨?_, ?_, ?_⟩
    · unfold monitorEntry
      rw [halive, htmo]
      simp only [Bool.not_true, Bool.false_eq_true, if_false]
      rw [if_pos hlate]
    · intro t ht hid
      rw [update_task_status_fst] at ht
      by_cases hg : (pool.videos.all (fun u => u.id != e.task_id)) = true
      · rw [if_pos hg] at ht
        rw [List.all_eq_true] at hg
        have h4 := hg t ht
        simp [bne, hid] at h4
      · rw [if_neg hg] at ht
        obtain ⟨u, hu, hut⟩ := List.mem_map.mp ht
        by_cases h2 : (u.id == e.task_id) = true
        · rw [if_pos h2] at hut
          subst hut
          refine ⟨updateFields_status .., ?_⟩
          rw [updateFields_error, if_pos hmsg]
        · rw [if_neg h2] at hut
          subst hut
          exact absurd hid (by simpa using h2)
    · intro a ha
      rw [List.mem_filter] at ha
      simpa using ha.2
  · intro hnotlate
    unfold monitorEntry
    rw [halive, htmo]
    simp only [Bool.not_true, Bool.false_eq_true, if_false]
    rw [if_neg hnotlate]

/-- Witness for C5: an alive entry with timeout 2, monitored at time 3,
    gets force-failed, the event published, and the entry removed. -/
theorem monitor_timeout_enforcement_witness :
    sampleEntry.threadAlive = true ∧ sampleEntry.task.timeout = some 2 ∧
    ((3 : Int) - sampleEntry.start_time > 2) ∧
    monitorEntry samplePool [sampleEntry] [] sampleEntry 3 =
      .ok ((VideoPool.update_task_status samplePool sampleEntry.task_id "failed" none
              (some ("Task timed out after " ++ toString (2 : Int) ++ " seconds")) 3).1,
           ([sampleEntry]).filter (fun a => a.task_id != sampleEntry.task_id),
           ([] : List (String × String)) ++ [(sampleEntry.task_id, "failed")]) :=
  ⟨rfl, rfl, by decide,
   (((monitor_timeout_enforcement samplePool [sampleEntry] [] sampleEntry 3 2
      rfl rfl).1) (by decide)).1⟩

theorem truthyStr_ne_none {o : Option String} (h : truthyStr o = true) : o ≠ none := by
  cases o with
  | none => simp [truthyStr] at h
  | some s => simp

/-- Counterexample for C4 as stated: the sequence create → update to
    "processing" → update to "completed" with no payload moves only along
    the allowed transitions, yet leaves a completed task whose
    `video_path` and `error` are both null — `update_task_status` never
    requires or fills the terminal payload. -/
theorem terminal_exclusivity_counterexample :
    opsAllowed PoolInit c4BadOps = true ∧
    ¬ TerminalExclusivity (runOps PoolInit c4BadOps) := by
  constructor
  · decide
  · decide

theorem map_update_ids (videos : List VideoTask) (task_id status : String)
    (vp err : Option String) (now : Int) :
    ((videos.map (fun t =>
        if t.id == task_id then VideoPool.updateFields status vp err now t else t)).map
      VideoTask.id) = videos.map VideoTask.id := by
  rw [List.map_map]
  apply List.map_congr_left
  intro t ht
  simp only [Function.comp_apply]
  split
  · exact updateFields_id ..
  · rfl

theorem dictInsert_nodup (videos : List VideoTask) (task : VideoTask)
    (h : (videos.map VideoTask.id).Nodup) :
    ((VideoPool.dictInsert videos task).map VideoTask.id).Nodup := by
  unfold VideoPool.dictInsert
  split
  · have heq : (videos.map (fun t => if t.id == task.id then task else t)).map VideoTask.id
        = videos.map VideoTask.id := by
      rw [List.map_map]
      apply List.map_congr_left
      intro t ht
      simp only [Function.comp_apply]
      split
      · next hbeq => exact ((beq_iff_eq ..).mp hbeq).symm
      · rfl
    rw [heq]
    exact h
  · next hany =>
    rw [List.map_append]
    apply List.Nodup.append h (by simp)
    intro a ha hb
    simp only [List.map_cons, List.map_nil, List.mem_singleton] at hb
    obtain ⟨u, hu, hua⟩ := List.mem_map.mp ha
    apply hany
    rw [List.any_eq_true]
    exact ⟨u, hu, by rw [beq_iff_eq, hua, hb]⟩

theorem statusOk_updateFields (t0 : VideoTask) (status : String)
    (vp err : Option String) (now : Int)
    (h1 : t0.video_path = none) (h2 : t0.error = none)
    (hcase : (status = "processing" ∧ truthyStr vp = false ∧ truthyStr err = false) ∨
             (status = "completed" ∧ truthyStr vp = true ∧ truthyStr err = false) ∨
             ((status = "failed" ∨ status = "timeout") ∧
               truthyStr vp = false ∧ truthyStr err = true)) :
    StatusOk (VideoPool.updateFields status vp err now t0) := by
  have hst := updateFields_status status vp err now t0
  have hv := updateFields_video_path status vp err now t0
  have he := updateFields_error status vp err now t0
  rcases hcase with ⟨hs, hvp, herr⟩ | ⟨hs, hvp, herr⟩ | ⟨hs, hvp, herr⟩
  · refine ⟨fun _ => ?_, fun hc => ?_, fun hf => ?_⟩
    · rw [hv, he, if_neg (by simp [hvp]), if_neg (by simp [herr])]
      exact ⟨h1, h2⟩
    · rw [hst, hs] at hc
      exact absurd hc (by decide)
    · rw [hst, hs] at hf
      rcases hf with hf | hf <;> exact absurd hf (by decide)
  · refine ⟨fun hc => ?_, fun _ => ?_, fun hf => ?_⟩
    · rw [hst, hs] at hc
      rcases hc with hc | hc <;> exact absurd hc (by decide)
    · constructor
      · rw [hv, if_pos hvp]
        exact hvp
      · rw [he, if_neg (by simp [herr])]
        exact h2
    · rw [hst, hs] at hf
      rcases hf with hf | hf <;> exact absurd hf (by decide)
  · refine ⟨fun hc => ?_, fun hc => ?_, fun _ => ?_⟩
    · rw [hst] at hc
      rcases hs with hs | hs <;> rw [hs] at hc <;>
        rcases hc with hc | hc <;> exact absurd hc (by decide)
    · rw [hst] at hc
      rcases hs with hs | hs <;> rw [hs] at hc <;> exact absurd hc (by decide)
    · constructor
      · rw [he, if_pos herr]
        exact herr
      · rw [hv, if_neg (by simp [hvp])]
        exact h1

theorem c4inv_applyOp (st : PoolState) (op : PoolOp) (hinv : C4Inv st)
    (hallowed : opAllowed st op = true) (hdisc : opDisciplined op = true) :
    C4Inv (applyOp st op) := by
  obtain ⟨hnodup, hok⟩ := hinv
  cases op with
  | create newId now content trigger_id agent_id action_sequence priority timeout =>
    have hpend : StatusOk
        { id := newId, content := content, trigger_id := trigger_id,
          agent_id := agent_id, action_sequence := action_sequence, status := "pending",
          created_at := now, updated_at := now, priority := priority, timeout := timeout,
          video_path := none, error := none } := by
      refine ⟨fun _ => ⟨rfl, rfl⟩, fun hc => by simp at hc, fun hf => ?_⟩
      rcases hf with hf | hf <;> simp at hf
    simp only [applyOp]
    unfold VideoPool.create_task
    by_cases hcase : (VideoPool.get_pending_tasks st).length ≥ MAX_QUEUE_LENGTH
    · rw [if_pos hcase]
      exact ⟨hnodup, hok⟩
    · rw [if_neg hcase]
      refine ⟨dictInsert_nodup _ _ hnodup, ?_⟩
      intro t ht
      replace ht : t ∈ VideoPool.dictInsert st.videos
        { id := newId, content := content, trigger_id := trigger_id,
          agent_id := agent_id, action_sequence := action_sequence, status := "pending",
          created_at := now, updated_at := now, priority := priority, timeout := timeout,
          video_path := none, error := none } := ht
      unfold VideoPool.dictInsert at ht
      split at ht
      · obtain ⟨u, hu, hut⟩ := List.mem_map.mp ht
        split at hut
        · rw [← hut]
          exact hpend
        · rw [← hut]
          exact hok u hu
      · rcases List.mem_append.mp ht with h | h
        · exact hok t h
        · rw [List.mem_singleton] at h
          rw [h]
          exact hpend
  | update task_id status video_path error now =>
    simp only [opAllowed] at hallowed
    cases hf : st.videos.find? (fun t => t.id == task_id) with
    | none =>
      rw [hf] at hallowed
      exact Bool.noConfusion hallowed
    | some t0 =>
      rw [hf] at hallowed
      have hallowed2 : allowedTransition t0.status status = true := hallowed
      have ht0mem := List.mem_of_find?_eq_some hf
      have ht0id : t0.id = task_id := by
        have h2 := List.find?_some hf
        rwa [beq_iff_eq] at h2
      have hguard := update_guard_false t0 ht0mem ht0id
      simp only [applyOp]
      rw [update_task_status_fst, if_neg (by simp [hguard])]
      refine ⟨?_, ?_⟩
      · show ((st.videos.map _).map VideoTask.id).Nodup
        rw [map_update_ids]
        exact hnodup
      · intro t ht
        obtain ⟨u, hu, hut⟩ := List.mem_map.mp ht
        by_cases hb : (u.id == task_id) = true
        · rw [if_pos hb] at hut
          have hu0 : u = t0 :=
            List.inj_on_of_nodup_map hnodup hu ht0mem
              (by rw [(beq_iff_eq ..).mp hb, ht0id])
          rw [← hut, hu0]
          unfold allowedTransition at hallowed2
          simp only [Bool.or_eq_true, Bool.and_eq_true, beq_iff_eq] at hallowed2
          simp only [opDisciplined, Bool.or_eq_true, Bool.and_eq_true, beq_iff_eq,
            Bool.not_eq_eq_eq_not, Bool.not_true] at hdisc
          have hok0 := hok t0 ht0mem
          have hfrom : t0.video_path = none ∧ t0.error = none := by
            rcases hallowed2 with ⟨hp, -⟩ | ⟨hp, -⟩
            · exact hok0.1 (Or.inl hp)
            · exact hok0.1 (Or.inr hp)
          apply statusOk_updateFields t0 status video_path error now hfrom.1 hfrom.2
          rcases hdisc with (⟨⟨hs, hvp⟩, herr⟩ | ⟨⟨hs, hvp⟩, herr⟩) | ⟨⟨hs, hvp⟩, herr⟩
          · exact Or.inl ⟨hs, hvp, herr⟩
          · exact Or.inr (Or.inl ⟨hs, hvp, herr⟩)
          · exact Or.inr (Or.inr ⟨hs, hvp, herr⟩)
        · rw [if_neg hb] at hut
          rw [← hut]
          exact hok u hu

theorem c4inv_runOps (ops : List PoolOp) : ∀ (st : PoolState), C4Inv st →
    opsAllowed st ops = true → (∀ op ∈ ops, opDisciplined op = true) →
    C4Inv (runOps st ops) := by
  induction ops with
  | nil =>
    intro st h _ _
    exact h
  | cons op rest ih =>
    intro st hinv hallowed hdisc
    have hsplit : opAllowed st op = true ∧ opsAllowed (applyOp st op) rest = true := by
      have h2 : (opAllowed st op && opsAllowed (applyOp st op) rest) = true := hallowed
      exact Bool.and_eq_true .. |>.mp h2
    exact ih (applyOp st op)
      (c4inv_applyOp st op hinv hsplit.1 (hdisc op (List.mem_cons_self op rest)))
      hsplit.2
      (fun o ho => hdisc o (List.mem_cons_of_mem op ho))

/-- C4 amended: terminal result exclusivity holds for every store state
    reachable from the empty store by `create_task` and
    `update_task_status` operations that move only along the allowed
    transitions, provided (as the counterexample forces, and as every
    call site in text2video.py does) each update carries the canonical
    payload for its target status: none for "processing", a truthy video
    path only for "completed", a truthy error only for "failed"/"timeout".
    Then every completed task has `video_path` set and `error` null, and
    every failed/timeout task has `error` set and `video_path` null. -/
theorem terminal_exclusivity_disciplined (ops : List PoolOp)
    (hallowed : opsAllowed PoolInit ops = true)
    (hdisc : ∀ op ∈ ops, opDisciplined op = true) :
    TerminalExclusivity (runOps PoolInit ops) := by
  have hinv := c4inv_runOps ops PoolInit ⟨by simp [PoolInit], by simp [PoolInit]⟩
    hallowed hdisc
  intro t ht
  have h3 := hinv.2 t ht
  constructor
  · intro hc
    obtain ⟨hv, he⟩ := h3.2.1 hc
    exact ⟨truthyStr_ne_none hv, he⟩
  · intro hfail
    obtain ⟨he, hv⟩ := h3.2.2 hfail
    exact ⟨truthyStr_ne_none he, hv⟩

/-- Witness for C4 amended: the disciplined sequence create → processing →
    completed-with-path satisfies terminal exclusivity. -/
theorem terminal_exclusivity_disciplined_witness :
    opsAllowed PoolInit c4GoodOps = true ∧
    (∀ op ∈ c4GoodOps, opDisciplined op = true) ∧
    TerminalExclusivity (runOps PoolInit c4GoodOps) :=
  ⟨by decide, by decide,
   terminal_exclusivity_disciplined c4GoodOps (by decide) (by decide)⟩

theorem delete_task_videos (st : PoolState) (tid : String) :
    (VideoPool.delete_task st tid).1.videos
      = st.videos.filter (fun t => t.id != tid) := by
  unfold VideoPool.delete_task
  cases hf : st.videos.find? (fun t => t.id == tid) with
  | none =>
    have hall : ∀ t ∈ st.videos, (t.id != tid) = true := by
      intro t ht
      have h2 := List.find?_eq_none.mp hf t ht
      simpa [bne] using h2
    exact (List.filter_eq_self.mpr hall).symm
  | some t0 => rfl

theorem delete_task_files_mem (st : PoolState) (tid : String) (t0 : VideoTask)
    (hf : st.videos.find? (fun t => t.id == tid) = some t0) (q : String) :
    q ∈ (VideoPool.delete_task st tid).1.files ↔
      (q ∈ st.files ∧ ¬(truthyStr t0.video_path = true ∧ t0.video_path = some q)) := by
  unfold VideoPool.delete_task
  rw [hf]
  show q ∈ (match t0.video_path with
      | some p => if !p.isEmpty && st.files.contains p
          then st.files.filter (fun r => r != p) else st.files
      | none => st.files) ↔ _
  cases hvp : t0.video_path with
  | none => simp [truthyStr]
  | some p =>
    show q ∈ (if !p.isEmpty && st.files.contains p
        then st.files.filter (fun r => r != p) else st.files) ↔ _
    by_cases he : p.isEmpty = true
    · rw [if_neg (by simp [he])]
      simp [truthyStr, he]
    · have hef : p.isEmpty = false := Bool.eq_false_iff.mpr he
      have htr : truthyStr (some p) = true := by simp [truthyStr, hef]
      by_cases hc : st.files.contains p = true
      · rw [if_pos ((Bool.and_eq_true _ _).mpr ⟨by rw [hef]; rfl, hc⟩)]
        constructor
        · intro hq
          rw [List.mem_filter] at hq
          refine ⟨hq.1, fun hcon => ?_⟩
          have hpq : p = q := Option.some.inj hcon.2
          rw [hpq] at hq
          simp at hq
        · intro ⟨hq, hne⟩
          rw [List.mem_filter]
          refine ⟨hq, ?_⟩
          simp only [bne_iff_ne, ne_eq]
          intro hqe
          exact hne ⟨htr, by rw [hqe]⟩
      · have hcf : st.files.contains p = false := Bool.eq_false_iff.mpr hc
        rw [if_neg (by rw [hcf, Bool.and_false]; exact Bool.false_ne_true)]
        constructor
        · intro hq
          refine ⟨hq, fun hcon => ?_⟩
          have hpq : p = q := Option.some.inj hcon.2
          rw [← hpq] at hq
          exact hc (List.elem_eq_true_of_mem hq)
        · intro h
          exact h.1

theorem foldl_delete_spec (tids : List String) : ∀ (st : PoolState),
    (st.videos.map VideoTask.id).Nodup → tids.Nodup →
    (∀ tid ∈ tids, ∃ t ∈ st.videos, t.id = tid) →
    ((tids.foldl (fun s tid => (VideoPool.delete_task s tid).1) st).videos
        = st.videos.filter (fun t => !tids.contains t.id)) ∧
    (∀ q, q ∈ (tids.foldl (fun s tid => (VideoPool.delete_task s tid).1) st).files ↔
        (q ∈ st.files ∧ ¬∃ t ∈ st.videos, t.id ∈ tids ∧
          truthyStr t.video_path = true ∧ t.video_path = some q)) := by
  induction tids with
  | nil =>
    intro st hnodup _ _
    constructor
    · rw [List.foldl_nil]
      exact (List.filter_eq_self.mpr (by simp)).symm
    · intro q
      rw [List.foldl_nil]
      simp
  | cons tid rest ih =>
    intro st hnodup htnodup hmem
    have htid_rest : tid ∉ rest := (List.nodup_cons.mp htnodup).1
    have hrest_nodup : rest.Nodup := (List.nodup_cons.mp htnodup).2
    obtain ⟨tw, htw_mem, htw_id⟩ := hmem tid (List.mem_cons_self tid rest)
    have hfs : (st.videos.find? (fun t => t.id == tid)).isSome := by
      rw [List.find?_isSome]
      exact ⟨tw, htw_mem, by rw [beq_iff_eq]; exact htw_id⟩
    obtain ⟨t0, hf⟩ := Option.isSome_iff_exists.mp hfs
    have ht0_mem : t0 ∈ st.videos := List.mem_of_find?_eq_some hf
    have ht0_id : t0.id = tid := by
      have h2 := List.find?_some hf
      rwa [beq_iff_eq] at h2
    set st1 := (VideoPool.delete_task st tid).1 with hst1
    have hv1 : st1.videos = st.videos.filter (fun t => t.id != tid) :=
      delete_task_videos st tid
    have hnodup1 : (st1.videos.map VideoTask.id).Nodup := by
      rw [hv1]
      exact List.Nodup.sublist ((List.filter_sublist _).map _) hnodup
    have hmem1 : ∀ tid2 ∈ rest, ∃ t ∈ st1.videos, t.id = tid2 := by
      intro tid2 h2
      obtain ⟨t, htmem, htid2⟩ := hmem tid2 (List.mem_cons_of_mem tid h2)
      refine ⟨t, ?_, htid2⟩
      rw [hv1, List.mem_filter]
      refine ⟨htmem, ?_⟩
      simp only [bne_iff_ne, ne_eq]
      intro hcon
      rw [htid2] at hcon
      rw [hcon] at h2
      exact htid_rest h2
    have hfold : (tid :: rest).foldl (fun s t2 => (VideoPool.delete_task s t2).1) st
        = rest.foldl (fun s t2 => (VideoPool.delete_task s t2).1) st1 := by
      rw [List.foldl_cons]
    obtain ⟨ihv, ihf⟩ := ih st1 hnodup1 hrest_nodup hmem1
    constructor
    · rw [hfold, ihv, hv1, List.filter_filter]
      apply List.filter_congr
      intro x hx
      simp only [List.contains_cons, Bool.not_or, bne]
      rw [Bool.and_comm]
    · intro q
      rw [hfold, ihf q]
      rw [delete_task_files_mem st tid t0 hf q]
      have hsplit : (∃ t ∈ st.videos, t.id ∈ (tid :: rest) ∧
            truthyStr t.video_path = true ∧ t.video_path = some q) ↔
          ((truthyStr t0.video_path = true ∧ t0.video_path = some q) ∨
           (∃ t ∈ st1.videos, t.id ∈ rest ∧
             truthyStr t.video_path = true ∧ t.video_path = some q)) := by
        constructor
        · rintro ⟨t, htmem, hin, htr, hvp⟩
          rcases List.mem_cons.mp hin with h1 | h1
          · have : t = t0 := List.inj_on_of_nodup_map hnodup htmem ht0_mem
              (by rw [h1, ht0_id])
            rw [this] at htr hvp
            exact Or.inl ⟨htr, hvp⟩
          · refine Or.inr ⟨t, ?_, h1, htr, hvp⟩
            rw [hv1, List.mem_filter]
            refine ⟨htmem, ?_⟩
            simp only [bne_iff_ne, ne_eq]
            intro hcon
            rw [hcon] at h1
            exact htid_rest h1
        · rintro (⟨htr, hvp⟩ | ⟨t, htmem, hin, htr, hvp⟩)
          · exact ⟨t0, ht0_mem, by rw [ht0_id]; exact List.mem_cons_self tid rest,
              htr, hvp⟩
          · have htm2 : t ∈ st.videos := by
              rw [hv1] at htmem
              exact (List.mem_filter.mp htmem).1
            exact ⟨t, htm2, List.mem_cons_of_mem tid hin, htr, hvp⟩
      constructor
      · rintro ⟨⟨hq, hn1⟩, hn2⟩
        refine ⟨hq, fun hcon => ?_⟩
        rcases hsplit.mp hcon with h | h
        · exact hn1 h
        · exact hn2 h
      · rintro ⟨hq, hn⟩
        refine ⟨⟨hq, fun h => hn (hsplit.mpr (Or.inl h))⟩,
          fun h => hn (hsplit.mpr (Or.inr h))⟩

/-- C9: retention sweep.  `clean_old_tasks(days)` at time `now` removes
    from the store exactly the tasks with
    `now - created_at > days*24*60*60` (leaving every younger record in
    place, unchanged), returns the number of tasks so removed, and a path
    survives on disk exactly when it was on disk and is not the truthy
    video artifact of a removed task. -/
theorem clean_old_tasks_spec (st : PoolState) (days now : Int)
    (hnodup : (st.videos.map VideoTask.id).Nodup) :
    (VideoPool.clean_old_tasks st days now).1.videos
        = st.videos.filter (fun t => !decide (now - t.created_at > days * 24 * 60 * 60)) ∧
    (VideoPool.clean_old_tasks st days now).2
        = (st.videos.filter (fun t => decide (now - t.created_at > days * 24 * 60 * 60))).length ∧
    (∀ p, p ∈ (VideoPool.clean_old_tasks st days now).1.files ↔
      (p ∈ st.files ∧ ¬∃ t ∈ st.videos, now - t.created_at > days * 24 * 60 * 60 ∧
        truthyStr t.video_path = true ∧ t.video_path = some p)) := by
  set old := fun t : VideoTask => decide (now - t.created_at > days * 24 * 60 * 60) with hold
  set tids := (st.videos.filter old).map (fun t => t.id) with htids
  have htids_nodup : tids.Nodup :=
    List.Nodup.sublist ((List.filter_sublist _).map _) hnodup
  have htids_mem : ∀ tid ∈ tids, ∃ t ∈ st.videos, t.id = tid := by
    intro tid h2
    obtain ⟨t, htmem, htid⟩ := List.mem_map.mp h2
    exact ⟨t, (List.mem_filter.mp htmem).1, htid⟩
  have hiff : ∀ t ∈ st.videos, (t.id ∈ tids ↔ old t = true) := by
    intro t htmem
    constructor
    · intro h2
      obtain ⟨u, humem, huid⟩ := List.mem_map.mp h2
      have hu2 := List.mem_filter.mp humem
      have : u = t := List.inj_on_of_nodup_map hnodup hu2.1 htmem huid
      rw [← this]
      exact hu2.2
    · intro h2
      exact List.mem_map.mpr ⟨t, List.mem_filter.mpr ⟨htmem, h2⟩, rfl⟩
  obtain ⟨hv, hfls⟩ := foldl_delete_spec tids st hnodup htids_nodup htids_mem
  refine ⟨?_, ?_, ?_⟩
  · show (tids.foldl (fun s tid => (VideoPool.delete_task s tid).1) st).videos = _
    rw [hv]
    apply List.filter_congr
    intro x hx
    have h2 := hiff x hx
    have hcont : tids.contains x.id = old x := by
      cases h3 : old x with
      | true => exact List.elem_eq_true_of_mem (h2.mpr h3)
      | false =>
        rw [Bool.eq_false_iff]
        intro hc
        have h4 := h2.mp (List.elem_iff.mp hc)
        rw [h3] at h4
        exact Bool.noConfusion h4
    rw [hcont]
  · show tids.length = _
    rw [htids, List.length_map]
  · intro p
    have h5 := hfls p
    constructor
    · intro hp
      obtain ⟨hq, hn⟩ := h5.mp hp
      refine ⟨hq, fun hcon => ?_⟩
      obtain ⟨t, htmem, hage, htr, hvp⟩ := hcon
      exact hn ⟨t, htmem, (hiff t htmem).mpr (by rw [hold]; exact decide_eq_true hage),
        htr, hvp⟩
    · intro ⟨hq, hn⟩
      apply h5.mpr
      refine ⟨hq, fun hcon => ?_⟩
      obtain ⟨t, htmem, hin, htr, hvp⟩ := hcon
      have hage := (hiff t htmem).mp hin
      rw [hold] at hage
      exact hn ⟨t, htmem, of_decide_eq_true hage, htr, hvp⟩

/-- Witness for C9: sweeping the two-task pool at time 1000000 with a
    7-day horizon removes exactly the old task and reports one removal. -/
theorem clean_old_tasks_spec_witness :
    ((c9Pool.videos.map VideoTask.id).Nodup) ∧
    (VideoPool.clean_old_tasks c9Pool 7 1000000).1.videos
      = c9Pool.videos.filter (fun t => !decide (1000000 - t.created_at > 7 * 24 * 60 * 60)) ∧
    (VideoPool.clean_old_tasks c9Pool 7 1000000).2
      = (c9Pool.videos.filter (fun t => decide (1000000 - t.created_at > 7 * 24 * 60 * 60))).length :=
  ⟨by decide, (clean_old_tasks_spec c9Pool 7 1000000 (by decide)).1,
   (clean_old_tasks_spec c9Pool 7 1000000 (by decide)).2.1⟩

theorem length_filter_le_card (l : List VideoTask) (A : Finset String)
    (hnodup : (l.map VideoTask.id).Nodup)
    (hsub : ∀ t ∈ l, t.status = "processing" → t.id ∈ A) :
    (l.filter (fun t => t.status == "processing")).length ≤ A.card := by
  classical
  have hmn : ((l.filter (fun t => t.status == "processing")).map VideoTask.id).Nodup :=
    List.Nodup.sublist ((List.filter_sublist _).map _) hnodup
  have hmsub : ∀ x ∈ (l.filter (fun t => t.status == "processing")).map VideoTask.id,
      x ∈ A := by
    intro x hx
    obtain ⟨t, htmem, hti⟩ := List.mem_map.mp hx
    have h2 := List.mem_filter.mp htmem
    rw [← hti]
    exact hsub t h2.1 (by simpa using h2.2)
  have hc : ((l.filter (fun t => t.status == "processing")).map VideoTask.id).toFinset
      ⊆ A := fun x hx => hmsub x (List.mem_toFinset.mp hx)
  have hlen := List.toFinset_card_of_nodup hmn
  have h3 := Finset.card_le_card hc
  rw [hlen, List.length_map] at h3
  exact h3

theorem sysInv_step (maxC : Nat) (s s2 : SysState) (hstep : SysStep maxC s s2)
    (hinv : SysInv maxC s) : SysInv maxC s2 := by
  obtain ⟨hnodup, hproc, hcard⟩ := hinv
  cases hstep with
  | create newId now content trigger_id agent_id action_sequence priority timeout st2 tid hfresh hcreate =>
    unfold VideoPool.create_task at hcreate
    dsimp only at hcreate
    split at hcreate
    · exact absurd hcreate (by simp)
    · injection hcreate with h1
      obtain ⟨h2, h3⟩ := Prod.mk.injEq .. |>.mp h1
      rw [← h2]
      refine ⟨dictInsert_nodup _ _ hnodup, ?_, hcard⟩
      intro t ht hp
      replace ht : t ∈ VideoPool.dictInsert s.pool.videos
          { id := newId, content := content, trigger_id := trigger_id,
            agent_id := agent_id, action_sequence := action_sequence,
            status := "pending", created_at := now, updated_at := now,
            priority := priority, timeout := timeout,
            video_path := none, error := none } := ht
      unfold VideoPool.dictInsert at ht
      split at ht
      · obtain ⟨u, hu, hut⟩ := List.mem_map.mp ht
        split at hut
        · rw [← hut] at hp
          simp at hp
        · rw [← hut] at hp ⊢
          exact hproc u hu hp
      · rcases List.mem_append.mp ht with h | h
        · exact hproc t h hp
        · rw [List.mem_singleton] at h
          rw [h] at hp
          simp at hp
  | claim t now hcap hsel =>
    obtain ⟨htmem_p, -⟩ := selectNextTask_spec _ t hsel
    have htmem : t ∈ s.pool.videos := (List.mem_filter.mp htmem_p).1
    have hguard := update_guard_false t htmem rfl
    refine ⟨?_, ?_, ?_⟩
    · show ((VideoPool.update_task_status s.pool t.id "processing" none none
        now).1.videos.map VideoTask.id).Nodup
      rw [update_task_status_ids]
      exact hnodup
    · intro u hu hup
      rw [update_task_status_fst, if_neg (by simp [hguard])] at hu
      obtain ⟨v, hv, hvu⟩ := List.mem_map.mp hu
      by_cases hb : (v.id == t.id) = true
      · rw [if_pos hb] at hvu
        rw [← hvu, updateFields_id, (beq_iff_eq ..).mp hb]
        exact Finset.mem_insert_self ..
      · rw [if_neg hb] at hvu
        rw [← hvu] at hup ⊢
        exact Finset.mem_insert_of_mem (hproc v hv hup)
    · show (insert t.id s.active).card ≤ maxC
      have h4 := Finset.card_insert_le t.id s.active
      omega
  | workerFinish tid stat vp err now hmem hterm =>
    refine ⟨?_, ?_, hcard⟩
    · show ((VideoPool.update_task_status s.pool tid stat vp err
        now).1.videos.map VideoTask.id).Nodup
      rw [update_task_status_ids]
      exact hnodup
    · intro u hu hup
      rw [update_task_status_fst] at hu
      split at hu
      · exact hproc u hu hup
      · obtain ⟨v, hv, hvu⟩ := List.mem_map.mp hu
        by_cases hb : (v.id == tid) = true
        · rw [if_pos hb] at hvu
          rw [← hvu, updateFields_status] at hup
          rcases hterm with ⟨hs, -, -⟩ | ⟨hs, -, -⟩ <;> rw [hs] at hup <;>
            exact absurd hup (by decide)
        · rw [if_neg hb] at hvu
          rw [← hvu] at hup ⊢
          exact hproc v hv hup
  | pruneFinished tid hmem hdone =>
    refine ⟨hnodup, ?_, le_trans Finset.card_erase_le hcard⟩
    intro u hu hup
    rw [Finset.mem_erase]
    refine ⟨fun hcon => (hdone u hu hcon) hup, hproc u hu hup⟩
  | timeoutStep tid tmo now hmem =>
    refine ⟨?_, ?_, le_trans Finset.card_erase_le hcard⟩
    · show ((VideoPool.update_task_status s.pool tid "failed" none
        (some ("Task timed out after " ++ toString tmo ++ " seconds"))
        now).1.videos.map VideoTask.id).Nodup
      rw [update_task_status_ids]
      exact hnodup
    · intro u hu hup
      rw [update_task_status_fst] at hu
      split at hu
      · next hg =>
        rw [Finset.mem_erase]
        have h5 := List.all_eq_true.mp hg u hu
        exact ⟨by simpa [bne] using h5, hproc u hu hup⟩
      · obtain ⟨v, hv, hvu⟩ := List.mem_map.mp hu
        by_cases hb : (v.id == tid) = true
        · rw [if_pos hb] at hvu
          rw [← hvu, updateFields_status] at hup
          exact absurd hup (by decide)
        · rw [if_neg hb] at hvu
          rw [← hvu] at hup ⊢
          rw [Finset.mem_erase]
          exact ⟨by simpa using hb, hproc v hv hup⟩

/-- C1: concurrency bound.  In every state reachable from the empty state
    by interleaving task creation, the processor's claim step (which
    refuses to claim when the active map already holds
    MAX_CONCURRENT_TASKS entries), the worker's terminal update, and the
    monitor's prune and timeout steps, the number of tasks with status
    "processing" never exceeds the bound. -/
theorem concurrency_bound (maxC : Nat) (s : SysState)
    (h : SysReachable maxC s) :
    (VideoPool.get_video_task_count s.pool).processing ≤ maxC := by
  have hinv : SysInv maxC s := by
    unfold SysReachable at h
    induction h with
    | refl => refine ⟨?_, ?_, ?_⟩ <;> simp [SysInit]
    | tail hsteps hstep ih => exact sysInv_step maxC _ _ hstep ih
  obtain ⟨hnodup, hproc, hcard⟩ := hinv
  have h2 := length_filter_le_card s.pool.videos s.active hnodup hproc
  calc (VideoPool.get_video_task_count s.pool).processing
      = (s.pool.videos.filter (fun t => t.status == "processing")).length := rfl
    _ ≤ s.active.card := h2
    _ ≤ maxC := hcard

/-- Witness for C1: after one create step and one claim step from the
    empty state, the reachable state holds one processing task, within
    the default bound of 2. -/
theorem concurrency_bound_witness :
    SysReachable MAX_CONCURRENT_TASKS c1State2 ∧
    (VideoPool.get_video_task_count c1State2.pool).processing
      ≤ MAX_CONCURRENT_TASKS := by
  have hstep1 : SysStep MAX_CONCURRENT_TASKS SysInit c1State1 :=
    SysStep.create SysInit "t1" 0 "content" "trigger" "agent" ["twitter"] 0
      (some 3600) c1State1.pool "t1" (by simp [SysInit]) rfl
  have hstep2 : SysStep MAX_CONCURRENT_TASKS c1State1 c1State2 :=
    SysStep.claim c1State1 c1Task 1 (by simp [c1State1, MAX_CONCURRENT_TASKS])
      (selectNextTask_cons_of_le c1Task [] (by simp))
  have hreach : SysReachable MAX_CONCURRENT_TASKS c1State2 :=
    Relation.ReflTransGen.tail
      (Relation.ReflTransGen.tail Relation.ReflTransGen.refl hstep1) hstep2
  exact ⟨hreach, concurrency_bound MAX_CONCURRENT_TASKS c1State2 hreach⟩
